import Mathlib

/-
  Verification development for the conversation turn orchestration engine of
  gemini-next-chat (src/app/page.tsx).

  The definitions below are a shallow embedding of the TypeScript source.
  Pure fragments become Lean functions; the stateful message store becomes
  explicit list passing.  Operations provided by modules outside src/
  (the zustand chat store, utils/prompt, utils/signature, utils/plugin) are
  modelled from the specification and are marked as such in their doc
  comments.
-/

set_option autoImplicit false

namespace GeminiNextChat

/-! ## Data model (spec section 3, src/app/page.tsx message construction) -/

/-- Role of a conversation message: user, model or function. -/
inductive Role where
  | user
  | model
  | function
deriving DecidableEq, Repr

/-- A model-requested function call: name plus structured arguments.
Arguments are the entries of a JS object, hence an ordered list of
(name, value) pairs with distinct names. -/
structure FunctionCall where
  name : String
  args : List (String × String)
deriving DecidableEq, Repr

/-- Result record fed back to the model for one function call. -/
structure FunctionResponse where
  name : String
  content : String
deriving DecidableEq, Repr

/-- One part of a message: text, inline data (mime type + base64 data),
file data (mime type + uri), a function call, or a function response. -/
inductive Part where
  | text (s : String)
  | inlineData (mimeType data : String)
  | fileData (mimeType fileUri : String)
  | functionCall (c : FunctionCall)
  | functionResponse (r : FunctionResponse)
deriving DecidableEq, Repr

/-- An attachment file as held by the attachment store: mime type, optional
base64 preview (old vision models) and optional upload metadata
(mime type, uri) for the newer attachment model. -/
structure AttachmentFile where
  mimeType : String
  preview : Option String
  metadata : Option (String × String)
deriving DecidableEq, Repr

/-- A conversation message: unique id, role, ordered parts, optional
attachments. -/
structure Message where
  id : String
  role : Role
  parts : List Part
  attachments : Option (List AttachmentFile) := none
deriving DecidableEq, Repr

/-- Rolling summary state: ids already folded into the summary and the
latest compressed content. -/
structure Summary where
  ids : List String
  content : String
deriving DecidableEq, Repr

/-- Talk mode setting: plain chat or voice conversation. -/
inductive TalkMode where
  | chat
  | voice
deriving DecidableEq, Repr

/-! ## Message store operations

The zustand chat store itself is not under src/; only its callers are. -/

/-- Embeds the add operation of the message store: append one message to the
ordered conversation log (spec: appended to an ordered, append-mostly
conversation log). -/
def addMessage (h : List Message) (m : Message) : List Message :=
  h ++ [m]

/-- Modelled from the spec: the revoke operation of the message store (store
code is not under src/).  Per the spec, revoke discards the message with the
given id from the conversation log. -/
def revoke (h : List Message) (msgId : String) : List Message :=
  h.filter (fun m => m.id ≠ msgId)

/-! ## Speech task (src/app/page.tsx lines 118-154, handleStopTalking 563-568)

The enqueued speech task is embedded as the ordered list of observable
events its body performs.  The body first checks the silence flag and calls
reject when it is raised; it then (unconditionally, the source has no early
return) awaits speech synthesis, and if a voice was produced it starts
audio playback and resolves. -/

/-- Observable events of one queued speech task. -/
inductive SpeechEvent where
  | rejectTask
  | synthesize
  | play
  | resolveTask
deriving DecidableEq, Repr

/-- Embeds the promise body enqueued by the speech callback: if the observed
silence flag is raised the promise is rejected; execution then continues to
the synthesis call and, when a voice buffer is produced, to playback and
resolve.  The voice argument is the synthesis outcome (none models a missing
result). -/
def speechTaskEvents (speechSilence : Bool) (voice : Option String) : List SpeechEvent :=
  (if speechSilence then [SpeechEvent.rejectTask] else []) ++
    (SpeechEvent.synthesize ::
      (match voice with
       | some _ => [SpeechEvent.play, SpeechEvent.resolveTask]
       | none => []))

/-- Embeds the speech callback: empty content is not enqueued at all;
otherwise the task body runs with the silence flag it observed. -/
def speech (content : String) (speechSilence : Bool) (voice : Option String) :
    List SpeechEvent :=
  if content.length = 0 then [] else speechTaskEvents speechSilence voice

/-! ## Stream demultiplexing (src/app/page.tsx lines 160-204, fetchAnswer) -/

/-- One chunk of the model stream: an optional function-call batch (the
result of chunk.functionCalls, none when the chunk is plain text) and the
chunk text. -/
structure Chunk where
  functionCalls : Option (List FunctionCall)
  text : String

/-- Embeds TextEncoder.encode: UTF-8 bytes of the chunk text. -/
def encode (s : String) : ByteArray :=
  s.toUTF8

/-- Embeds the stream loop of fetchAnswer: each chunk with a function-call
signal is forwarded to the function-call callback and suppressed from the
text channel; every other chunk has its text encoded and enqueued on the
text channel, in arrival order.  Returns (text channel, forwarded call
batches). -/
def demuxChunks : List Chunk → List ByteArray × List (List FunctionCall)
  | [] => ([], [])
  | chunk :: rest =>
    let r := demuxChunks rest
    match chunk.functionCalls with
    | some calls => (r.1, calls :: r.2)
    | none => (encode chunk.text :: r.1, r.2)

/-! ## Authentication configuration (src/app/page.tsx lines 160-179) -/

/-- Modelled from the spec: the signed token derived from the access
password (utils/signature is not under src/). -/
def encodeToken (password : String) : String :=
  "signed-token(" ++ password ++ ")"

/-- Slice of the outgoing request configuration relevant to authentication:
the key actually sent and the optional base url override. -/
structure ChatRequestConfig where
  apiKey : String
  baseUrl : Option String := none
deriving DecidableEq, Repr

/-- Which authentication branch of fetchAnswer was taken. -/
inductive AuthMode where
  | direct
  | token
deriving DecidableEq, Repr

/-- Embeds the authentication branch of fetchAnswer: the config starts with
the caller-supplied key; when that key is non-empty the config keeps it and
takes the caller-supplied proxy base url when one is set; otherwise the key
is replaced by the signed token and the base url by the default gateway
path. -/
def configureAuth (apiKey apiProxy password : String) : ChatRequestConfig × AuthMode :=
  let config : ChatRequestConfig := { apiKey := apiKey }
  if apiKey ≠ "" then
    if apiProxy ≠ "" then ({ config with baseUrl := some apiProxy }, AuthMode.direct)
    else (config, AuthMode.direct)
  else
    ({ config with apiKey := encodeToken password, baseUrl := some "/api/google" },
      AuthMode.token)

/-! ## Claim theorems: C3, C8, C9 -/

/-- Claim C3 (code bug evaluation): at the failing input, a queued speech
task that observes the raised silence flag rejects its promise but still
proceeds to start synthesis and playback, because the source has no early
return after reject.  The claim (and spec section 5) require that such a
task never start synthesis or playback. -/
theorem speech_task_plays_despite_silence_flag :
    speech "Hello." true (some "audio-buffer") =
      [SpeechEvent.rejectTask, SpeechEvent.synthesize, SpeechEvent.play,
        SpeechEvent.resolveTask] ∧
    SpeechEvent.play ∈ speech "Hello." true (some "audio-buffer") ∧
    SpeechEvent.synthesize ∈ speech "Hello." true (some "audio-buffer") := by
  refine ⟨rfl, ?_, ?_⟩ <;> decide

/-- Claim C8: the stream demultiplexer sends a chunk carrying a
function-call signal only to the function-call callback (nothing from it
reaches the text channel), and enqueues the encoded text of every other
chunk on the text channel in arrival order. -/
theorem demux_separates_calls_from_text (chunks : List Chunk) :
    (demuxChunks chunks).1 =
      (chunks.filter (fun c => c.functionCalls.isNone)).map (fun c => encode c.text) ∧
    (demuxChunks chunks).2 = chunks.filterMap Chunk.functionCalls := by
  induction chunks with
  | nil => exact ⟨rfl, rfl⟩
  | cons chunk rest ih =>
    cases h : chunk.functionCalls with
    | some calls => simp [demuxChunks, h, ih.1, ih.2]
    | none => simp [demuxChunks, h, ih.1, ih.2]

/-- Claim C9: exactly one authentication path is active per request.  When
the caller-supplied key is non-empty the request uses that key (with the
caller-supplied proxy base url when one is set); when the key is empty the
request uses the signed token derived from the password together with the
default gateway base path; the two branches are mutually exclusive. -/
theorem auth_exactly_one_path (apiKey apiProxy password : String) :
    ((configureAuth apiKey apiProxy password).2 = AuthMode.direct ↔ apiKey ≠ "") ∧
    (apiKey ≠ "" →
      (configureAuth apiKey apiProxy password).1 =
        { apiKey := apiKey, baseUrl := if apiProxy = "" then none else some apiProxy }) ∧
    (apiKey = "" →
      (configureAuth apiKey apiProxy password).1 =
        { apiKey := encodeToken password, baseUrl := some "/api/google" }) ∧
    ¬((configureAuth apiKey apiProxy password).2 = AuthMode.direct ∧
      (configureAuth apiKey apiProxy password).2 = AuthMode.token) := by
  by_cases hk : apiKey = ""
  · subst hk
    refine ⟨by simp [configureAuth], by simp, fun _ => rfl, ?_⟩
    rintro ⟨h1, h2⟩
    rw [h1] at h2
    exact AuthMode.noConfusion h2
  · by_cases hp : apiProxy = ""
    · subst hp
      refine ⟨by simp [configureAuth, hk], fun _ => by simp [configureAuth, hk], ?_, ?_⟩
      · intro h
        exact absurd h hk
      · rintro ⟨h1, h2⟩
        rw [h1] at h2
        exact AuthMode.noConfusion h2
    · refine ⟨by simp [configureAuth, hk, hp], fun _ => by simp [configureAuth, hk, hp], ?_, ?_⟩
      · intro h
        exact absurd h hk
      · rintro ⟨h1, h2⟩
        rw [h1] at h2
        exact AuthMode.noConfusion h2

/-- Witness for C9: both branches instantiated at concrete inputs. -/
theorem auth_exactly_one_path_witness :
    (configureAuth "my-key" "https://proxy.example" "pw").1 =
      { apiKey := "my-key", baseUrl := some "https://proxy.example" } ∧
    (configureAuth "" "https://proxy.example" "pw").1 =
      { apiKey := encodeToken "pw", baseUrl := some "/api/google" } := by
  constructor
  · have h := (auth_exactly_one_path "my-key" "https://proxy.example" "pw").2.1 (by decide)
    simpa using h
  · exact (auth_exactly_one_path "" "https://proxy.example" "pw").2.2.1 rfl

/-! ## Submission (src/app/page.tsx lines 391-474, handleSubmit) -/

/-- Modelled from the spec: the summary context builder from utils/prompt
(not under src/); it prepends the summary content as condensed context for
the outgoing request. -/
def getSummaryPrompt (content : String) : List Message :=
  [{ id := "summary", role := Role.user, parts := [Part.text content] }]

/-- External prompt transforms from utils/prompt (not under src/ and not
described by the spec); the claims below are settled in configurations
where the source does not apply them, so they are kept abstract. -/
structure SubmitEnv where
  getTalkAudioPrompt : List Message → List Message
  getVoiceModelPrompt : List Message → List Message

/-- Embeds the summary branch of handleSubmit (lines 452-455): when the
summary content is non-empty, already-summarized messages are filtered out
and the condensed context is prepended. -/
def applySummary (summary : Summary) (messages : List Message) : List Message :=
  if summary.content ≠ "" then
    getSummaryPrompt summary.content ++
      messages.filter (fun item => !(summary.ids.contains item.id))
  else messages

/-- Embeds the attachment part construction of handleSubmit (lines
399-421): old vision models embed the base64 preview inline, newer models
reference the uploaded file metadata. -/
def buildFileParts (isOldVisionModel : Bool) (files : List AttachmentFile) : List Part :=
  files.filterMap (fun file =>
    if isOldVisionModel then
      match file.preview with
      | some preview =>
        some (Part.inlineData file.mimeType (((preview.splitOn ";base64,").getD 1 "")))
      | none => none
    else
      match file.metadata with
      | some md => some (Part.fileData md.1 md.2)
      | none => none)

/-- Detects the recorded-audio data url prefixes checked at line 422. -/
def isAudioDataUrl (text : String) : Bool :=
  text.startsWith "data:audio/webm;base64," || text.startsWith "data:audio/mp4;base64,"

/-- Outcome of one submission: whether it was rejected, the resulting
conversation history, the resulting attachment store content, and the
request history of the issued model turn (none when no turn was issued). -/
structure SubmitOutcome where
  rejected : Bool
  history : List Message
  files : List AttachmentFile
  request : Option (List Message)
deriving Repr

/-- Embeds handleSubmit: empty text is rejected immediately (before any
state change); otherwise the user message is built from the attachments and
the text (or recorded audio data url), appended to history, the attachment
store is cleared, the optional talk-audio / voice-mode transforms and the
summary branch are applied, and the model turn is issued with the resulting
request history. -/
def handleSubmit (env : SubmitEnv) (talkMode : TalkMode) (isOldVisionModel : Bool)
    (summary : Summary) (files : List AttachmentFile) (history : List Message)
    (text newId : String) : SubmitOutcome :=
  if text = "" then
    { rejected := true, history := history, files := files, request := none }
  else
    let fileParts := if files.length > 0 then buildFileParts isOldVisionModel files else []
    let audioData := (text.drop 5).splitOn ";base64,"
    let messagePart :=
      if isAudioDataUrl text then
        fileParts ++ [Part.inlineData (audioData.getD 0 "") (audioData.getD 1 "")]
      else fileParts ++ [Part.text text]
    let talkAudioMode := isAudioDataUrl text
    let newUserMessage : Message :=
      { id := newId, role := Role.user, parts := messagePart,
        attachments := if !isOldVisionModel then some files else none }
    let history1 := addMessage history newUserMessage
    let messages1 := if talkAudioMode then env.getTalkAudioPrompt history1 else history1
    let messages2 :=
      if talkMode = TalkMode.voice then env.getVoiceModelPrompt messages1 else messages1
    let messages3 := applySummary summary messages2
    { rejected := false, history := history1, files := [], request := some messages3 }

/-- Claim C10: submitting the empty string is rejected immediately: the
conversation history is unchanged, the attachment store is not cleared, and
no model turn is issued. -/
theorem submit_empty_text_rejected (env : SubmitEnv) (talkMode : TalkMode)
    (isOldVisionModel : Bool) (summary : Summary) (files : List AttachmentFile)
    (history : List Message) (newId : String) :
    (handleSubmit env talkMode isOldVisionModel summary files history "" newId).rejected
        = true ∧
    (handleSubmit env talkMode isOldVisionModel summary files history "" newId).history
        = history ∧
    (handleSubmit env talkMode isOldVisionModel summary files history "" newId).files
        = files ∧
    (handleSubmit env talkMode isOldVisionModel summary files history "" newId).request
        = none := by
  refine ⟨?_, ?_, ?_, ?_⟩ <;> rfl

/-! ## Regeneration (src/app/page.tsx lines 476-506, handleResubmit) -/

/-- Embeds the lodash findIndex used by handleResubmit, with none playing
the role of the -1 result. -/
def findIndex? {α : Type} (p : α → Bool) : List α → Option Nat
  | [] => none
  | x :: xs => if p x then some 0 else (findIndex? p xs).map (fun i => i + 1)

/-- Outcome of a resubmission: the conversation history after the removal
step and the request history of the fresh turn. -/
structure ResubmitOutcome where
  history : List Message
  request : List Message
deriving Repr

/-- Embeds handleResubmit: the sentinel id "error" skips removal; otherwise
the target message is located by id; a model-role target is revoked, any
other target has the message immediately following it revoked (when one
exists); the fresh turn is then issued from the resulting history. -/
def handleResubmit (h : List Message) (msgId : String) : ResubmitOutcome :=
  let h1 :=
    if msgId = "error" then h
    else
      match findIndex? (fun m => m.id == msgId) h with
      | none => h
      | some i =>
        match h[i]? with
        | none => h
        | some target =>
          if target.role = Role.model then revoke h msgId
          else
            match h[i + 1]? with
            | some nextMessage => revoke h nextMessage.id
            | none => h
  { history := h1, request := h1 }

/-! ## Lemmas about findIndex? and revoke -/

theorem findIndex?_append_cons {α : Type} (p : α → Bool) (l : List α) (m : α)
    (r : List α) (hl : ∀ a ∈ l, p a = false) (hm : p m = true) :
    findIndex? p (l ++ m :: r) = some l.length := by
  induction l with
  | nil => simp [findIndex?, hm]
  | cons a t ih =>
    have ha : p a = false := hl a (List.mem_cons_self a t)
    have ht : ∀ b ∈ t, p b = false := fun b hb => hl b (List.mem_cons_of_mem a hb)
    simp [findIndex?, ha, ih ht]

theorem getElem?_append_cons_self (l r : List Message) (m : Message) :
    (l ++ m :: r)[l.length]? = some m := by
  induction l with
  | nil => simp
  | cons a t ih => simpa using ih

theorem getElem?_append_cons_succ (l r : List Message) (m : Message) :
    (l ++ m :: r)[l.length + 1]? = r[0]? := by
  induction l with
  | nil => simp
  | cons a t ih => simpa using ih

theorem revoke_append_cons (l r : List Message) (m : Message)
    (hl : ∀ a ∈ l, a.id ≠ m.id) (hr : ∀ a ∈ r, a.id ≠ m.id) :
    revoke (l ++ m :: r) m.id = l ++ r := by
  unfold revoke
  rw [List.filter_append, List.filter_cons]
  have h1 : l.filter (fun a => !decide (a.id = m.id)) = l :=
    List.filter_eq_self.mpr (fun a ha => by simp [hl a ha])
  have h2 : r.filter (fun a => !decide (a.id = m.id)) = r :=
    List.filter_eq_self.mpr (fun a ha => by simp [hr a ha])
  simp [h1, h2]

/-! ## Claim C2: counterexample, amended theorem, witness -/

/-- Concrete model-role message whose id is the reserved sentinel. -/
def sentinelIdMessage : Message :=
  { id := "error", role := Role.model, parts := [Part.text "hi"] }

/-- Claim C2 counterexample: a history containing a model-role message whose
id is the reserved sentinel "error".  Resubmitting with that id removes
nothing (the sentinel branch skips removal entirely), refuting the claim
that resubmitting with the id of any model-role message present in history
removes exactly that message. -/
theorem resubmit_sentinel_counterexample :
    sentinelIdMessage.role = Role.model ∧
    sentinelIdMessage ∈ [sentinelIdMessage] ∧
    (handleResubmit [sentinelIdMessage] "error").history = [sentinelIdMessage] := by
  exact ⟨rfl, List.mem_singleton.mpr rfl, rfl⟩

/-- Claim C2 (amended): for a history with distinct message ids and a target
message whose id is not the reserved sentinel "error": resubmitting with the
id of a model-role message removes exactly that message before issuing the
fresh turn; resubmitting with the id of a user-role message removes only the
message immediately following it (when one exists) and leaves the user
message intact; the fresh turn is issued from the resulting history. -/
theorem resubmit_amended (l r : List Message) (m : Message)
    (hnodup : ((l ++ m :: r).map Message.id).Nodup)
    (hne : m.id ≠ "error") :
    (m.role = Role.model →
      handleResubmit (l ++ m :: r) m.id = { history := l ++ r, request := l ++ r }) ∧
    (m.role = Role.user → r = [] →
      handleResubmit (l ++ m :: r) m.id =
        { history := l ++ m :: r, request := l ++ m :: r }) ∧
    (m.role = Role.user → ∀ x r2, r = x :: r2 →
      handleResubmit (l ++ m :: r) m.id =
        { history := l ++ m :: r2, request := l ++ m :: r2 }) := by
  have hmap : ((l ++ m :: r).map Message.id) =
      l.map Message.id ++ m.id :: r.map Message.id := by simp
  rw [hmap] at hnodup
  have hmid : m.id ∉ l.map Message.id ++ r.map Message.id ∧
      (l.map Message.id ++ r.map Message.id).Nodup := by
    have := List.nodup_middle.mp hnodup
    exact ⟨(List.nodup_cons.mp this).1, (List.nodup_cons.mp this).2⟩
  have hml : ∀ a ∈ l, a.id ≠ m.id := by
    intro a ha heq
    exact hmid.1 (List.mem_append_left _ (heq ▸ List.mem_map_of_mem Message.id ha))
  have hmr : ∀ a ∈ r, a.id ≠ m.id := by
    intro a ha heq
    exact hmid.1 (List.mem_append_right _ (heq ▸ List.mem_map_of_mem Message.id ha))
  have hfind : findIndex? (fun a => a.id == m.id) (l ++ m :: r) = some l.length := by
    apply findIndex?_append_cons
    · intro a ha
      simpa using hml a ha
    · simp
  have hget : (l ++ m :: r)[l.length]? = some m := getElem?_append_cons_self l r m
  refine ⟨?_, ?_, ?_⟩
  · intro hrole
    have hrv : revoke (l ++ m :: r) m.id = l ++ r := revoke_append_cons l r m hml hmr
    simp [handleResubmit, hne, hfind, hget, hrole, hrv]
  · intro hrole hrnil
    subst hrnil
    have hget1 : (l ++ m :: ([] : List Message))[l.length + 1]? = none :=
      getElem?_append_cons_succ l [] m
    simp [handleResubmit, hne, hfind, hget, hrole, hget1]
  · intro hrole x r2 hrx
    subst hrx
    have hget1 : (l ++ m :: x :: r2)[l.length + 1]? = some x := by
      simpa using getElem?_append_cons_succ l (x :: r2) m
    have hxid : x.id ∉ l.map Message.id ++ r2.map Message.id ∧ x.id ≠ m.id := by
      have h2 := hmid.2
      have h3 : (l.map Message.id ++ x.id :: r2.map Message.id).Nodup := by
        simpa using h2
      have h4 := List.nodup_cons.mp (List.nodup_middle.mp h3)
      refine ⟨h4.1, ?_⟩
      intro heq
      exact hmid.1 (List.mem_append_right _ (by simp [← heq]))
  -- x.id differs from everything in l, from m.id, and from everything in r2
    have hxl : ∀ a ∈ l ++ [m], a.id ≠ x.id := by
      intro a ha
      rcases List.mem_append.mp ha with hal | ham
      · intro heq
        exact hxid.1 (List.mem_append_left _ (heq ▸ List.mem_map_of_mem Message.id hal))
      · have : a = m := List.mem_singleton.mp ham
        subst this
        exact fun heq => hxid.2 heq.symm
    have hxr : ∀ a ∈ r2, a.id ≠ x.id := by
      intro a ha heq
      exact hxid.1 (List.mem_append_right _ (heq ▸ List.mem_map_of_mem Message.id ha))
    have hrv : revoke (l ++ m :: x :: r2) x.id = l ++ m :: r2 := by
      have : l ++ m :: x :: r2 = (l ++ [m]) ++ x :: r2 := by simp
      rw [this, revoke_append_cons (l ++ [m]) r2 x hxl hxr]
      simp
    simp [handleResubmit, hne, hfind, hget, hrole, hget1, hrv]

/-- Concrete user message for the resubmit witness. -/
def witUserMsg : Message := { id := "u1", role := Role.user, parts := [Part.text "hi"] }

/-- Concrete model message for the resubmit witness. -/
def witModelMsg : Message := { id := "m1", role := Role.model, parts := [Part.text "yo"] }

/-- Witness for the amended C2 theorem: both branches at concrete inputs. -/
theorem resubmit_amended_witness :
    handleResubmit [witUserMsg, witModelMsg] "m1" =
      { history := [witUserMsg], request := [witUserMsg] } ∧
    handleResubmit [witUserMsg, witModelMsg] "u1" =
      { history := [witUserMsg], request := [witUserMsg] } := by
  constructor
  · have h := (resubmit_amended [witUserMsg] [] witModelMsg (by decide) (by decide)).1 rfl
    simpa using h
  · have h :=
      (resubmit_amended [] [witModelMsg] witUserMsg (by decide) (by decide)).2.2 rfl
        witModelMsg [] rfl
    simpa using h

/-! ## Plugin catalog (spec section 3, src/app/page.tsx lines 284-389) -/

/-- A declared OpenAPI operation parameter: its name and its location
string (the source field is called in; Lean reserves that word). -/
structure Parameter where
  name : String
  in_ : String
deriving DecidableEq, Repr

/-- A resolved plugin operation: request path, http method and declared
parameters. -/
structure Operation where
  path : String
  method : String
  parameters : List Parameter
deriving DecidableEq, Repr

/-- One server entry of an OpenAPI document. -/
structure Server where
  url : String
deriving DecidableEq, Repr

/-- The OpenAPI document of an installed plugin: an optional server list
and the operation catalog.  The catalog field embodies what
findOperationById (utils/plugin, not under src/) consumes; modelled from
the spec: operations keyed by operation id. -/
structure OpenAPIDoc where
  servers : Option (List Server)
  operations : List (String × Operation)
deriving DecidableEq, Repr

/-- An installed plugin manifest. -/
structure PluginManifest where
  openapi : OpenAPIDoc
deriving DecidableEq, Repr

/-- Modelled from the spec: findOperationById (utils/plugin, not under
src/) looks the referenced operation up by id in the manifest catalog. -/
def findOperationById (doc : OpenAPIDoc) (operationId : String) : Option Operation :=
  (doc.operations.find? (fun entry => entry.1 == operationId)).map (fun entry => entry.2)

/-- Embeds the JS object property read installed[pluginId]: none models the
undefined result for an absent key. -/
def installedLookup (installed : List (String × PluginManifest)) (pluginId : String) :
    Option PluginManifest :=
  (installed.find? (fun entry => entry.1 == pluginId)).map (fun entry => entry.2)

/-- Embeds call.name.split(sep)[0]: the prefix of the name before the first
separator (the whole name when no separator occurs). -/
def splitHeadUnderscore (s : String) : String :=
  String.mk (s.data.takeWhile (fun c => c != '_'))

/-! ## Argument classification (src/app/page.tsx lines 311-344) -/

/-- The five payload locations distinguished by the classification chain. -/
inductive ParamLoc where
  | query
  | path
  | formData
  | headers
  | cookie
deriving DecidableEq, Repr

/-- Embeds the if-chain of string comparisons on parameter.in at lines
325-335: the recognized location strings in source order; any other string
falls through every branch. -/
def parseParamLoc (s : String) : Option ParamLoc :=
  if s = "query" then some ParamLoc.query
  else if s = "path" then some ParamLoc.path
  else if s = "formData" then some ParamLoc.formData
  else if s = "headers" then some ParamLoc.headers
  else if s = "cookie" then some ParamLoc.cookie
  else none

/-- Embeds a JS object assignment obj[k] = v on an insertion-ordered map:
overwrite in place when the key exists, append otherwise. -/
def objSet : List (String × String) → String → String → List (String × String)
  | [], k, v => [(k, v)]
  | (k1, v1) :: rest, k, v =>
    if k1 = k then (k, v) :: rest else (k1, v1) :: objSet rest k v

/-- Embeds a JS object property read obj[k]. -/
def objLookup : List (String × String) → String → Option String
  | [], _ => none
  | (k1, v1) :: rest, k => if k1 = k then some v1 else objLookup rest k

/-- The five payload maps being assembled for one call. -/
structure ArgMaps where
  formData : List (String × String) := []
  headers : List (String × String) := []
  path : List (String × String) := []
  query : List (String × String) := []
  cookie : List (String × String) := []
deriving DecidableEq, Repr

/-- Reads the map of one location. -/
def getMapAt : ParamLoc → ArgMaps → List (String × String)
  | ParamLoc.query, acc => acc.query
  | ParamLoc.path, acc => acc.path
  | ParamLoc.formData, acc => acc.formData
  | ParamLoc.headers, acc => acc.headers
  | ParamLoc.cookie, acc => acc.cookie

/-- Replaces the map of one location. -/
def setMapAt : ParamLoc → ArgMaps → List (String × String) → ArgMaps
  | ParamLoc.query, acc, m => { acc with query := m }
  | ParamLoc.path, acc, m => { acc with path := m }
  | ParamLoc.formData, acc, m => { acc with formData := m }
  | ParamLoc.headers, acc, m => { acc with headers := m }
  | ParamLoc.cookie, acc, m => { acc with cookie := m }

/-- Embeds the body of the parameters.forEach callback for one argument
(name, value) and one declared parameter: when the names match, the value
is assigned into the map selected by the parameter location string; an
unrecognized location string falls through and assigns nothing. -/
def assignParam (name value : String) (p : Parameter) (acc : ArgMaps) : ArgMaps :=
  if p.name = name then
    match parseParamLoc p.in_ with
    | some loc => setMapAt loc acc (objSet (getMapAt loc acc) name value)
    | none => acc
  else acc

/-- Embeds parameters.forEach for one argument entry. -/
def forEachParams (name value : String) : List Parameter → ArgMaps → ArgMaps
  | [], acc => acc
  | p :: rest, acc => forEachParams name value rest (assignParam name value p acc)

/-- Embeds the outer for-of loop over entries(call.args). -/
def processArgs (params : List Parameter) : List (String × String) → ArgMaps → ArgMaps
  | [], acc => acc
  | (name, value) :: rest, acc =>
    processArgs params rest (forEachParams name value params acc)

/-- Classification of all call arguments against the declared parameters,
starting from empty maps. -/
def classifyArgs (params : List Parameter) (args : List (String × String)) : ArgMaps :=
  processArgs params args {}

/-! ## Gateway payload and call resolution (src/app/page.tsx lines 301-349) -/

/-- The transient gateway request descriptor: target url, method, and the
optional payload maps (a map is attached only when non-empty). -/
structure GatewayPayload where
  baseUrl : String
  method : String
  formData : Option (List (String × String)) := none
  headers : Option (List (String × String)) := none
  path : Option (List (String × String)) := none
  query : Option (List (String × String)) := none
  cookie : Option (List (String × String)) := none
deriving DecidableEq, Repr

/-- Assembles the gateway payload from the classified arguments, attaching
each map only when it is non-empty (the isEmpty guards at lines 340-344). -/
def buildPayload (baseUrl : String) (operation : Operation)
    (args : List (String × String)) : GatewayPayload :=
  let maps := classifyArgs operation.parameters args
  { baseUrl := baseUrl ++ operation.path
    method := operation.method
    formData := if maps.formData.isEmpty then none else some maps.formData
    headers := if maps.headers.isEmpty then none else some maps.headers
    path := if maps.path.isEmpty then none else some maps.path
    query := if maps.query.isEmpty then none else some maps.query
    cookie := if maps.cookie.isEmpty then none else some maps.cookie }

/-- Result of resolving one function call against the installed plugins:
crash models an uncaught TypeError (absent manifest dereferenced, or
servers[0] on an empty array), opMissing the reported execution error for
an absent operation, ok a ready gateway payload. -/
inductive DispatchStep where
  | crash
  | opMissing
  | ok (payload : GatewayPayload)
deriving DecidableEq, Repr

/-- Operation lookup step shared by the server-list branches. -/
def resolveOp (pluginManifest : PluginManifest) (baseUrl : String)
    (call : FunctionCall) : DispatchStep :=
  let pluginId := splitHeadUnderscore call.name
  match findOperationById pluginManifest.openapi (call.name.drop (pluginId.length + 1)) with
  | none => DispatchStep.opMissing
  | some operation => DispatchStep.ok (buildPayload baseUrl operation call.args)

/-- Embeds lines 301-314: split the call name at the first underscore into
plugin id and operation id; dereference the installed manifest (crashing
like the source when it is absent); take servers[0].url as base url when a
server list is present (crashing on an empty list, like servers[0].url on
[]); look the operation up, reporting an execution error when absent;
otherwise assemble the payload. -/
def resolveCall (installed : List (String × PluginManifest))
    (call : FunctionCall) : DispatchStep :=
  let pluginId := splitHeadUnderscore call.name
  match installedLookup installed pluginId with
  | none => DispatchStep.crash
  | some pluginManifest =>
    match pluginManifest.openapi.servers with
    | none => resolveOp pluginManifest "" call
    | some [] => DispatchStep.crash
    | some (s :: _) => resolveOp pluginManifest s.url call

/-! ## Error reporting and the dispatch loop (src/app/page.tsx 222-231, 284-389) -/

/-- Embeds handleError: when the last history message has the model role it
is revoked and a labeled error (status code defaulting to 400) is surfaced;
otherwise nothing happens. -/
def handleErrorStep (h : List Message) (errs : List String) (message : String)
    (code : Option Nat) : List Message × List String :=
  match h.getLast? with
  | none => (h, errs)
  | some lastMessage =>
    if lastMessage.role = Role.model then
      (revoke h lastMessage.id,
        errs ++ [(match code with | some c => toString c | none => "400") ++ ": " ++ message])
    else (h, errs)

/-- The empty placeholder model message created at loop top (line 290). -/
def placeholderMessage (msgId : String) : Message :=
  { id := msgId, role := Role.model, parts := [Part.text ""] }

/-- The call-record message appended before execution (lines 291-300). -/
def functionCallMessage (call : FunctionCall) (msgId : String) : Message :=
  { id := msgId, role := Role.model, parts := [Part.functionCall call] }

/-- The function-role response message built from the gateway result
(lines 350-364). -/
def functionResponseMessage (call : FunctionCall) (content msgId : String) : Message :=
  { id := msgId, role := Role.function,
    parts := [Part.functionResponse { name := call.name, content := content }] }

/-- Environment of the dispatcher: the installed plugin registry, the
gateway round trip (an Except models a thrown fetch/json error), and the
nanoid supply. -/
structure DispatchEnv where
  installed : List (String × PluginManifest)
  gateway : GatewayPayload → Except String String
  genId : Nat → String

/-- Observable outcome of one handleFunctionCall invocation: the final
conversation history, the request histories of the follow-up turns issued,
the reported errors, and whether an uncaught exception escaped. -/
structure DispatchResult where
  history : List Message
  followUps : List (List Message)
  errors : List String
  crashed : Bool

/-- Embeds the for-of loop of handleFunctionCall.  Per call: two ids are
drawn (empty placeholder first, call record second, as in the source), the
call record is appended, the call is resolved; an absent manifest crashes
the loop, an absent operation reports an execution error and returns, a
gateway failure reports an execution error with code 500 and continues with
the next call, and a successful gateway round trip appends the response
message and the placeholder and issues the follow-up turn from the history
without its last element before continuing. -/
def dispatchLoop (env : DispatchEnv) :
    Nat → List Message → List (List Message) → List String → List FunctionCall →
      DispatchResult
  | _, h, fups, errs, [] =>
    { history := h, followUps := fups, errors := errs, crashed := false }
  | supply, h, fups, errs, call :: rest =>
    let newModelMessage := placeholderMessage (env.genId supply)
    let callRecord := functionCallMessage call (env.genId (supply + 1))
    let h1 := addMessage h callRecord
    match resolveCall env.installed call with
    | DispatchStep.crash =>
      { history := h1, followUps := fups, errors := errs, crashed := true }
    | DispatchStep.opMissing =>
      let stepped := handleErrorStep h1 errs "FunctionCall execution failed!" none
      { history := stepped.1, followUps := fups, errors := stepped.2, crashed := false }
    | DispatchStep.ok payload =>
      match env.gateway payload with
      | Except.error msg =>
        let stepped := handleErrorStep h1 errs msg (some 500)
        dispatchLoop env (supply + 2) stepped.1 fups stepped.2 rest
      | Except.ok content =>
        let respMsg := functionResponseMessage call content (env.genId (supply + 2))
        let h2 := addMessage (addMessage h1 respMsg) newModelMessage
        dispatchLoop env (supply + 3) h2 (fups ++ [h2.dropLast]) errs rest

/-- The gateway content a call yields in the all-success scenario. -/
def gatewayContent (env : DispatchEnv) (call : FunctionCall) : String :=
  match resolveCall env.installed call with
  | DispatchStep.ok payload =>
    match env.gateway payload with
    | Except.ok content => content
    | Except.error _ => ""
  | _ => ""

/-- The three messages one successful call appends, in append order. -/
def successTriple (env : DispatchEnv) (supply : Nat) (call : FunctionCall)
    (content : String) : List Message :=
  [functionCallMessage call (env.genId (supply + 1)),
    functionResponseMessage call content (env.genId (supply + 2)),
    placeholderMessage (env.genId supply)]

/-- The full suffix an all-success batch appends to history. -/
def dispatchAppends (env : DispatchEnv) : Nat → List FunctionCall → List Message
  | _, [] => []
  | supply, call :: rest =>
    successTriple env supply call (gatewayContent env call) ++
      dispatchAppends env (supply + 3) rest

/-- Recognizes a call-record message and extracts its call. -/
def callRecordOf? (m : Message) : Option FunctionCall :=
  match m.role, m.parts with
  | Role.model, [Part.functionCall c] => some c
  | _, _ => none

/-- Recognizes a function-role response message and extracts the responded
call name. -/
def responseNameOf? (m : Message) : Option String :=
  match m.role, m.parts with
  | Role.function, [Part.functionResponse r] => some r.name
  | _, _ => none

/-- Recognizes an empty placeholder model-role message. -/
def isEmptyModelPlaceholder (m : Message) : Bool :=
  m.role == Role.model && m.parts == [Part.text ""]

/-! ## Lemmas about the argument classification -/

theorem objLookup_objSet (m : List (String × String)) (k v x : String) :
    objLookup (objSet m k v) x = if x = k then some v else objLookup m x := by
  induction m with
  | nil =>
    by_cases hx : x = k
    · simp [objSet, objLookup, hx]
    · have hkx : ¬(k = x) := fun h => hx h.symm
      simp [objSet, objLookup, hx, hkx]
  | cons a rest ih =>
    obtain ⟨k1, v1⟩ := a
    by_cases h1 : k1 = k
    · subst h1
      by_cases hx : x = k1
      · simp [objSet, objLookup, hx]
      · have hkx : ¬(k1 = x) := fun h => hx h.symm
        simp [objSet, objLookup, hx, hkx]
    · by_cases hx : x = k1
      · subst hx
        have hxk : ¬(x = k) := fun h => h1 h
        simp [objSet, objLookup, h1, hxk]
      · have hkx : ¬(k1 = x) := fun h => hx h.symm
        simp [objSet, objLookup, h1, hx, hkx, ih]

theorem getMapAt_setMapAt (loc loc2 : ParamLoc) (acc : ArgMaps)
    (m : List (String × String)) :
    getMapAt loc (setMapAt loc2 acc m) = if loc = loc2 then m else getMapAt loc acc := by
  cases loc <;> cases loc2 <;> simp [getMapAt, setMapAt]

theorem assignParam_lookup (loc : ParamLoc) (n v x : String) (p : Parameter)
    (acc : ArgMaps) :
    objLookup (getMapAt loc (assignParam n v p acc)) x =
      if p.name = n ∧ parseParamLoc p.in_ = some loc ∧ x = n then some v
      else objLookup (getMapAt loc acc) x := by
  unfold assignParam
  by_cases h1 : p.name = n
  · cases hp : parseParamLoc p.in_ with
    | none => simp [h1, hp]
    | some loc2 =>
      by_cases hl : loc = loc2
      · subst hl
        simp [h1, hp, getMapAt_setMapAt, objLookup_objSet]
      · have hl2 : ¬(some loc2 = some loc) := fun h => hl (Option.some.inj h).symm
        simp [h1, hp, getMapAt_setMapAt, hl, hl2]
  · simp [h1]

theorem forEachParams_lookup (loc : ParamLoc) (n v x : String)
    (params : List Parameter) (acc : ArgMaps) :
    objLookup (getMapAt loc (forEachParams n v params acc)) x =
      if x = n ∧ params.any (fun p => decide (p.name = n ∧ parseParamLoc p.in_ = some loc))
      then some v
      else objLookup (getMapAt loc acc) x := by
  induction params generalizing acc with
  | nil => simp [forEachParams]
  | cons p ps ih =>
    rw [forEachParams, ih, assignParam_lookup]
    by_cases hx : x = n
    · subst hx
      by_cases hp : p.name = x ∧ parseParamLoc p.in_ = some loc
      · simp [hp]
      · by_cases hany : ps.any (fun q => decide (q.name = x ∧ parseParamLoc q.in_ = some loc)) = true
        · simp [hp, hany]
        · simp [hp, hany]
    · simp [hx]

theorem find?_cons_true {α : Type} (p : α → Bool) (a : α) (l : List α)
    (h : p a = true) : List.find? p (a :: l) = some a := by
  simp [List.find?, h]

theorem find?_cons_false {α : Type} (p : α → Bool) (a : α) (l : List α)
    (h : p a = false) : List.find? p (a :: l) = l.find? p := by
  simp [List.find?, h]

theorem find?_eq_of_nodup (args : List (String × String)) (name value : String)
    (hnodup : (args.map Prod.fst).Nodup) (hmem : (name, value) ∈ args) :
    args.find? (fun a => a.1 == name) = some (name, value) := by
  induction args with
  | nil => cases hmem
  | cons a rest ih =>
    obtain ⟨k, w⟩ := a
    have hnodup2 : (rest.map Prod.fst).Nodup := by
      simp only [List.map_cons] at hnodup
      exact (List.nodup_cons.mp hnodup).2
    have hknotin : (k, w).1 ∉ rest.map Prod.fst := by
      simp only [List.map_cons] at hnodup
      exact (List.nodup_cons.mp hnodup).1
    by_cases hk : k = name
    · rcases List.mem_cons.mp hmem with hhead | htail
      · have hcond : ((k, w).1 == name) = true := by simpa using hk
        rw [find?_cons_true (fun a => a.1 == name) (k, w) rest hcond, ← hhead]
      · exfalso
        apply hknotin
        have : (name, value).1 ∈ rest.map Prod.fst := List.mem_map_of_mem Prod.fst htail
        simpa [hk] using this
    · have hcond : ((k, w).1 == name) = false := by simpa using hk
      have htail : (name, value) ∈ rest := by
        rcases List.mem_cons.mp hmem with hhead | ht
        · exfalso
          apply hk
          injection hhead with h1 h2
          exact h1.symm
        · exact ht
      rw [find?_cons_false (fun a => a.1 == name) (k, w) rest hcond]
      exact ih hnodup2 htail

theorem processArgs_lookup (loc : ParamLoc) (params : List Parameter)
    (args : List (String × String)) (acc : ArgMaps) (x : String)
    (hnodup : (args.map Prod.fst).Nodup) :
    objLookup (getMapAt loc (processArgs params args acc)) x =
      match args.find? (fun a => a.1 == x) with
      | some a =>
        if params.any (fun p => decide (p.name = x ∧ parseParamLoc p.in_ = some loc))
        then some a.2
        else objLookup (getMapAt loc acc) x
      | none => objLookup (getMapAt loc acc) x := by
  induction args generalizing acc with
  | nil => simp [processArgs]
  | cons a rest ih =>
    obtain ⟨n, v⟩ := a
    have hnodup2 : (rest.map Prod.fst).Nodup := by
      simp only [List.map_cons] at hnodup
      exact (List.nodup_cons.mp hnodup).2
    have hnnotin : (n, v).1 ∉ rest.map Prod.fst := by
      simp only [List.map_cons] at hnodup
      exact (List.nodup_cons.mp hnodup).1
    rw [processArgs, ih _ hnodup2, forEachParams_lookup]
    by_cases hx : n = x
    · have hrest : rest.find? (fun a => a.1 == x) = none := by
        rw [List.find?_eq_none]
        intro a ha hbeq
        apply hnnotin
        have : a.1 ∈ rest.map Prod.fst := List.mem_map_of_mem Prod.fst ha
        have hax : a.1 = x := by simpa using hbeq
        simpa [hx, ← hax] using this
      have hcond : ((n, v).1 == x) = true := by simpa using hx
      rw [find?_cons_true (fun a => a.1 == x) (n, v) rest hcond, hrest]
      by_cases hany :
          params.any (fun p => decide (p.name = x ∧ parseParamLoc p.in_ = some loc)) = true
      · simp [hany, hx]
      · simp [hany, hx]
    · have hcond : ((n, v).1 == x) = false := by simpa using hx
      have hxn : ¬(x = n) := fun h => hx h.symm
      rw [find?_cons_false (fun a => a.1 == x) (n, v) rest hcond]
      cases hr : rest.find? (fun a => a.1 == x) with
      | none => simp [hr, hxn]
      | some b => simp [hr, hxn]

theorem getMapAt_empty (loc : ParamLoc) : getMapAt loc {} = [] := by
  cases loc <;> rfl

/-! ## Claim C5: theorem and witness -/

/-- Claim C5: for a call whose argument names are distinct (JS object
entries) and an operation whose declared parameter locations all lie in
the recognized vocabulary (query, path, formData, headers, cookie): each
argument (name, value) is placed into exactly the payload maps of the
locations of the declared parameters bearing that name, with its value,
and an argument whose name matches no declared parameter appears in no
payload map. -/
theorem args_placed_by_declared_location (params : List Parameter)
    (args : List (String × String)) (name value : String)
    (hnodup : (args.map Prod.fst).Nodup)
    (hlocs : ∀ p ∈ params, (parseParamLoc p.in_).isSome)
    (hmem : (name, value) ∈ args) :
    (∀ loc : ParamLoc,
      objLookup (getMapAt loc (classifyArgs params args)) name =
        if params.any (fun p => decide (p.name = name ∧ parseParamLoc p.in_ = some loc))
        then some value
        else none) ∧
    ((∃ loc : ParamLoc,
        objLookup (getMapAt loc (classifyArgs params args)) name ≠ none) ↔
      ∃ p ∈ params, p.name = name) ∧
    ((∀ p ∈ params, p.name ≠ name) →
      ∀ loc : ParamLoc, objLookup (getMapAt loc (classifyArgs params args)) name = none) := by
  have hfind : args.find? (fun a => a.1 == name) = some (name, value) :=
    find?_eq_of_nodup args name value hnodup hmem
  have hmain : ∀ loc : ParamLoc,
      objLookup (getMapAt loc (classifyArgs params args)) name =
        if params.any (fun p => decide (p.name = name ∧ parseParamLoc p.in_ = some loc))
        then some value
        else none := by
    intro loc
    rw [classifyArgs, processArgs_lookup loc params args {} name hnodup, hfind]
    simp [getMapAt_empty, objLookup]
  refine ⟨hmain, ?_, ?_⟩
  · constructor
    · rintro ⟨loc, hloc⟩
      rw [hmain loc] at hloc
      by_cases hany : params.any
          (fun p => decide (p.name = name ∧ parseParamLoc p.in_ = some loc)) = true
      · obtain ⟨p, hp, hdec⟩ := List.any_eq_true.mp hany
        exact ⟨p, hp, (of_decide_eq_true hdec).1⟩
      · rw [if_neg hany] at hloc
        exact absurd rfl hloc
    · rintro ⟨p, hp, hpname⟩
      obtain ⟨loc, hloc⟩ := Option.isSome_iff_exists.mp (hlocs p hp)
      refine ⟨loc, ?_⟩
      rw [hmain loc, if_pos (List.any_eq_true.mpr ⟨p, hp, decide_eq_true ⟨hpname, hloc⟩⟩)]
      exact Option.some_ne_none value
  · intro hnone loc
    rw [hmain loc, if_neg]
    intro hany
    obtain ⟨p, hp, hdec⟩ := List.any_eq_true.mp hany
    exact hnone p hp (of_decide_eq_true hdec).1

/-- Declared parameters for the C5 witness. -/
def witParams : List Parameter :=
  [{ name := "q", in_ := "query" }, { name := "h", in_ := "headers" }]

/-- Call arguments for the C5 witness: one classified, one undeclared. -/
def witArgs : List (String × String) := [("q", "1"), ("junk", "2")]

/-- Witness for C5: the declared argument lands exactly in the query map
and the undeclared argument appears in no map. -/
theorem args_placed_by_declared_location_witness :
    objLookup (getMapAt ParamLoc.query (classifyArgs witParams witArgs)) "q" = some "1" ∧
    objLookup (getMapAt ParamLoc.headers (classifyArgs witParams witArgs)) "q" = none ∧
    (∀ loc : ParamLoc,
      objLookup (getMapAt loc (classifyArgs witParams witArgs)) "junk" = none) := by
  have h1 := args_placed_by_declared_location witParams witArgs "q" "1"
    (by decide) (by decide) (by decide)
  have h2 := args_placed_by_declared_location witParams witArgs "junk" "2"
    (by decide) (by decide) (by decide)
  refine ⟨?_, ?_, ?_⟩
  · have := h1.1 ParamLoc.query
    rw [this, if_pos (by decide)]
  · have := h1.1 ParamLoc.headers
    rw [this, if_neg (by decide)]
  · exact h2.2.2 (by decide)

/-! ## Lemmas about the dispatch loop -/

theorem revoke_concat_self (h : List Message) (a : Message)
    (hfresh : a.id ∉ h.map Message.id) : revoke (h ++ [a]) a.id = h := by
  have hl : ∀ b ∈ h, b.id ≠ a.id := by
    intro b hb heq
    exact hfresh (heq ▸ List.mem_map_of_mem Message.id hb)
  have hr : ∀ b ∈ ([] : List Message), b.id ≠ a.id := by
    intro b hb
    cases hb
  simpa using revoke_append_cons h [] a hl hr

theorem callRecordOf?_callRecord (c : FunctionCall) (msgId : String) :
    callRecordOf? (functionCallMessage c msgId) = some c := rfl

theorem callRecordOf?_response (c : FunctionCall) (content msgId : String) :
    callRecordOf? (functionResponseMessage c content msgId) = none := rfl

theorem callRecordOf?_placeholder (msgId : String) :
    callRecordOf? (placeholderMessage msgId) = none := rfl

theorem responseNameOf?_callRecord (c : FunctionCall) (msgId : String) :
    responseNameOf? (functionCallMessage c msgId) = none := rfl

theorem responseNameOf?_response (c : FunctionCall) (content msgId : String) :
    responseNameOf? (functionResponseMessage c content msgId) = some c.name := rfl

theorem responseNameOf?_placeholder (msgId : String) :
    responseNameOf? (placeholderMessage msgId) = none := rfl

theorem isEmptyModelPlaceholder_callRecord (c : FunctionCall) (msgId : String) :
    isEmptyModelPlaceholder (functionCallMessage c msgId) = false := by
  simp [isEmptyModelPlaceholder, functionCallMessage]

theorem isEmptyModelPlaceholder_response (c : FunctionCall) (content msgId : String) :
    isEmptyModelPlaceholder (functionResponseMessage c content msgId) = false := by
  simp [isEmptyModelPlaceholder, functionResponseMessage]

theorem isEmptyModelPlaceholder_placeholder (msgId : String) :
    isEmptyModelPlaceholder (placeholderMessage msgId) = true := by
  simp [isEmptyModelPlaceholder, placeholderMessage]

theorem dispatchLoop_all_success (env : DispatchEnv) (calls : List FunctionCall) :
    ∀ (supply : Nat) (h : List Message) (fups : List (List Message)) (errs : List String),
    (∀ call ∈ calls, ∃ payload content,
        resolveCall env.installed call = DispatchStep.ok payload ∧
        env.gateway payload = Except.ok content) →
    (dispatchLoop env supply h fups errs calls).history =
        h ++ dispatchAppends env supply calls ∧
    (dispatchLoop env supply h fups errs calls).errors = errs ∧
    (dispatchLoop env supply h fups errs calls).crashed = false := by
  induction calls with
  | nil =>
    intro supply h fups errs _
    simp [dispatchLoop, dispatchAppends]
  | cons call rest ih =>
    intro supply h fups errs hok
    obtain ⟨payload, content, hres, hgw⟩ := hok call (List.mem_cons_self call rest)
    have hrest : ∀ c ∈ rest, ∃ payload content,
        resolveCall env.installed c = DispatchStep.ok payload ∧
        env.gateway payload = Except.ok content :=
      fun c hc => hok c (List.mem_cons_of_mem call hc)
    have hcontent : gatewayContent env call = content := by
      simp [gatewayContent, hres, hgw]
    have hstep := ih (supply + 3)
      (addMessage
        (addMessage (addMessage h (functionCallMessage call (env.genId (supply + 1))))
          (functionResponseMessage call content (env.genId (supply + 2))))
        (placeholderMessage (env.genId supply)))
      (fups ++
        [(addMessage
            (addMessage (addMessage h (functionCallMessage call (env.genId (supply + 1))))
              (functionResponseMessage call content (env.genId (supply + 2))))
            (placeholderMessage (env.genId supply))).dropLast])
      errs hrest
    simp only [dispatchLoop, hres, hgw]
    refine ⟨?_, hstep.2.1, hstep.2.2⟩
    rw [hstep.1]
    simp [dispatchAppends, successTriple, addMessage, hcontent]

theorem dispatchAppends_classifiers (env : DispatchEnv) (calls : List FunctionCall) :
    ∀ supply : Nat,
    (dispatchAppends env supply calls).filterMap callRecordOf? = calls ∧
    (dispatchAppends env supply calls).filterMap responseNameOf? =
        calls.map FunctionCall.name ∧
    ((dispatchAppends env supply calls).filter isEmptyModelPlaceholder).length =
        calls.length ∧
    (dispatchAppends env supply calls).length = 3 * calls.length := by
  induction calls with
  | nil =>
    intro supply
    simp [dispatchAppends]
  | cons call rest ih =>
    intro supply
    have h := ih (supply + 3)
    refine ⟨?_, ?_, ?_, ?_⟩
    · simp [dispatchAppends, successTriple, callRecordOf?_callRecord,
        callRecordOf?_response, callRecordOf?_placeholder, h.1]
    · simp [dispatchAppends, successTriple, responseNameOf?_callRecord,
        responseNameOf?_response, responseNameOf?_placeholder, h.2.1]
    · simp [dispatchAppends, successTriple, isEmptyModelPlaceholder_callRecord,
        isEmptyModelPlaceholder_response, isEmptyModelPlaceholder_placeholder, h.2.2.1]
    · simp [dispatchAppends, successTriple, h.2.2.2]
      ring

/-! ## Claim C1: theorem and witness -/

/-- Claim C1: a function-call batch of size K in which every call resolves
to an installed plugin operation and every gateway round trip succeeds is
processed by the sequential dispatch loop without errors or crash, and
appends to the conversation history exactly the per-call triples (call
record, function-role response, empty placeholder) in call order: the
appended suffix carries exactly the K calls as call records in batch order,
exactly the K call names as function-role responses in batch order, exactly
K empty model-role placeholders, and nothing else (3K messages). -/
theorem dispatch_batch_appends (env : DispatchEnv) (supply : Nat) (h : List Message)
    (fups : List (List Message)) (errs : List String) (calls : List FunctionCall)
    (hok : ∀ call ∈ calls, ∃ payload content,
        resolveCall env.installed call = DispatchStep.ok payload ∧
        env.gateway payload = Except.ok content) :
    (dispatchLoop env supply h fups errs calls).history =
        h ++ dispatchAppends env supply calls ∧
    (dispatchLoop env supply h fups errs calls).errors = errs ∧
    (dispatchLoop env supply h fups errs calls).crashed = false ∧
    (dispatchAppends env supply calls).filterMap callRecordOf? = calls ∧
    (dispatchAppends env supply calls).filterMap responseNameOf? =
        calls.map FunctionCall.name ∧
    ((dispatchAppends env supply calls).filter isEmptyModelPlaceholder).length =
        calls.length ∧
    (dispatchAppends env supply calls).length = 3 * calls.length := by
  obtain ⟨h1, h2, h3⟩ := dispatchLoop_all_success env calls supply h fups errs hok
  obtain ⟨a1, a2, a3, a4⟩ := dispatchAppends_classifiers env calls supply
  exact ⟨h1, h2, h3, a1, a2, a3, a4⟩

/-- Installed manifest for the dispatch witnesses: one plugin w with one
operation lookup. -/
def witManifest : PluginManifest :=
  { openapi :=
    { servers := some [{ url := "https://api.example" }]
      operations := [("lookup", { path := "/lookup", method := "get", parameters := [] })] } }

/-- Dispatch environment for the witnesses. -/
def witEnv : DispatchEnv :=
  { installed := [("w", witManifest)]
    gateway := fun _ => Except.ok "{}"
    genId := fun n => toString n }

/-- The gateway payload the witness call resolves to. -/
def witPayload : GatewayPayload :=
  { baseUrl := "https://api.example/lookup", method := "get" }

/-- The witness call batch: two calls on the installed operation. -/
def witCalls : List FunctionCall :=
  [{ name := "w_lookup", args := [] }, { name := "w_lookup", args := [] }]

/-- Witness for C1: the all-success batch of size two at a concrete
environment appends exactly two call records, two responses and two
placeholders in call order. -/
theorem dispatch_batch_appends_witness :
    (dispatchLoop witEnv 0 [] [] [] witCalls).history =
        dispatchAppends witEnv 0 witCalls ∧
    (dispatchLoop witEnv 0 [] [] [] witCalls).crashed = false ∧
    (dispatchAppends witEnv 0 witCalls).filterMap callRecordOf? = witCalls ∧
    (dispatchAppends witEnv 0 witCalls).length = 3 * witCalls.length := by
  have hok : ∀ call ∈ witCalls, ∃ payload content,
      resolveCall witEnv.installed call = DispatchStep.ok payload ∧
      witEnv.gateway payload = Except.ok content := by
    intro call hc
    have : call = { name := "w_lookup", args := [] } := by
      rcases List.mem_cons.mp hc with h | h
      · exact h
      · rcases List.mem_cons.mp h with h2 | h2
        · exact h2
        · cases h2
    subst this
    exact ⟨witPayload, "{}", by decide, rfl⟩
  have h := dispatch_batch_appends witEnv 0 [] [] [] witCalls hok
  refine ⟨?_, h.2.2.1, h.2.2.2.1, h.2.2.2.2.2.2⟩
  rw [h.1]
  simp

/-! ## Claim C6: theorem and witness -/

/-- Claim C6: a single successful call appends the function-role response
message and then the empty placeholder model message, and issues the
follow-up turn with a request history equal to the conversation history
with exactly that trailing placeholder removed. -/
theorem followup_excludes_trailing_placeholder (env : DispatchEnv) (supply : Nat)
    (h : List Message) (fups : List (List Message)) (errs : List String)
    (call : FunctionCall) (payload : GatewayPayload) (content : String)
    (hres : resolveCall env.installed call = DispatchStep.ok payload)
    (hgw : env.gateway payload = Except.ok content) :
    (dispatchLoop env supply h fups errs [call]).history =
      h ++ [functionCallMessage call (env.genId (supply + 1)),
        functionResponseMessage call content (env.genId (supply + 2)),
        placeholderMessage (env.genId supply)] ∧
    (dispatchLoop env supply h fups errs [call]).followUps =
      fups ++ [(dispatchLoop env supply h fups errs [call]).history.dropLast] ∧
    (dispatchLoop env supply h fups errs [call]).history.dropLast =
      h ++ [functionCallMessage call (env.genId (supply + 1)),
        functionResponseMessage call content (env.genId (supply + 2))] ∧
    (dispatchLoop env supply h fups errs [call]).history.getLast? =
      some (placeholderMessage (env.genId supply)) := by
  have hhist : (dispatchLoop env supply h fups errs [call]).history =
      h ++ [functionCallMessage call (env.genId (supply + 1)),
        functionResponseMessage call content (env.genId (supply + 2)),
        placeholderMessage (env.genId supply)] := by
    simp [dispatchLoop, hres, hgw, addMessage]
  have hsplit : h ++ [functionCallMessage call (env.genId (supply + 1)),
      functionResponseMessage call content (env.genId (supply + 2)),
      placeholderMessage (env.genId supply)] =
      (h ++ [functionCallMessage call (env.genId (supply + 1)),
        functionResponseMessage call content (env.genId (supply + 2))]) ++
        [placeholderMessage (env.genId supply)] := by
    simp
  refine ⟨hhist, ?_, ?_, ?_⟩
  · simp [dispatchLoop, hres, hgw, addMessage, hhist]
  · rw [hhist, hsplit, List.dropLast_concat]
  · rw [hhist, hsplit, List.getLast?_concat]

/-- Witness for C6 at the concrete environment: the follow-up request is
the new history without its trailing placeholder. -/
theorem followup_excludes_trailing_placeholder_witness :
    (dispatchLoop witEnv 0 [] [] [] [{ name := "w_lookup", args := [] }]).followUps =
      [[functionCallMessage { name := "w_lookup", args := [] } "1",
        functionResponseMessage { name := "w_lookup", args := [] } "{}" "2"]] ∧
    (dispatchLoop witEnv 0 [] [] [] [{ name := "w_lookup", args := [] }]).history.getLast? =
      some (placeholderMessage "0") := by
  have h := followup_excludes_trailing_placeholder witEnv 0 [] [] []
    { name := "w_lookup", args := [] } witPayload "{}" (by decide) rfl
  constructor
  · rw [h.2.1, h.2.2.1]
    have h0 : witEnv.genId 0 = "0" := by decide
    have h1 : witEnv.genId (0 + 1) = "1" := by decide
    have h2 : witEnv.genId (0 + 2) = "2" := by decide
    rw [h1, h2]
    simp
  · have h0 : witEnv.genId 0 = "0" := by decide
    rw [h.2.2.2, h0]

/-! ## Claim C4: counterexample, amended theorem, witness -/

/-- Dispatch environment with no plugin installed. -/
def emptyEnv : DispatchEnv :=
  { installed := [], gateway := fun _ => Except.ok "{}", genId := fun n => toString n }

/-- A call naming a plugin that is not installed. -/
def missingPluginCall : FunctionCall := { name := "weather_lookup", args := [] }

/-- Claim C4 counterexample: dispatching a call whose plugin is not
installed crashes the loop (the absent manifest is dereferenced, a
TypeError) and reports no execution error, refuting the claim that an
absent manifest fails with a reported execution error rather than
crashing. -/
theorem dispatch_missing_manifest_counterexample :
    (dispatchLoop emptyEnv 0 [] [] [] [missingPluginCall]).crashed = true ∧
    (dispatchLoop emptyEnv 0 [] [] [] [missingPluginCall]).errors = [] := by
  constructor <;> rfl

/-- Claim C4 (amended): the call name is split at the first underscore into
a plugin identifier (the prefix before the separator) and an operation
identifier (the remainder).  When the referenced operation is absent from
an installed manifest, the dispatch fails with the reported execution error
(and the loop stops without crashing, handleError rolling the just-appended
call record back).  When the manifest itself is absent, the dispatch does
not report an execution error: it crashes with an uncaught exception,
leaving the call record appended. -/
theorem dispatch_resolution_amended (env : DispatchEnv) (supply : Nat)
    (h : List Message) (fups : List (List Message)) (errs : List String)
    (call : FunctionCall) (rest : List FunctionCall) :
    (installedLookup env.installed (splitHeadUnderscore call.name) = none →
      (dispatchLoop env supply h fups errs (call :: rest)).crashed = true ∧
      (dispatchLoop env supply h fups errs (call :: rest)).errors = errs ∧
      (dispatchLoop env supply h fups errs (call :: rest)).history =
        h ++ [functionCallMessage call (env.genId (supply + 1))]) ∧
    (∀ m, installedLookup env.installed (splitHeadUnderscore call.name) = some m →
      m.openapi.servers ≠ some [] →
      findOperationById m.openapi
          (call.name.drop ((splitHeadUnderscore call.name).length + 1)) = none →
      env.genId (supply + 1) ∉ h.map Message.id →
      (dispatchLoop env supply h fups errs (call :: rest)).crashed = false ∧
      (dispatchLoop env supply h fups errs (call :: rest)).errors =
        errs ++ ["400: FunctionCall execution failed!"] ∧
      (dispatchLoop env supply h fups errs (call :: rest)).history = h) := by
  constructor
  · intro hlookup
    have hres : resolveCall env.installed call = DispatchStep.crash := by
      simp [resolveCall, hlookup]
    refine ⟨?_, ?_, ?_⟩ <;> simp [dispatchLoop, hres, addMessage]
  · intro m hlookup hserv hop hfresh
    have hres : resolveCall env.installed call = DispatchStep.opMissing := by
      simp only [resolveCall, hlookup]
      cases hs : m.openapi.servers with
      | none => simp [resolveOp, hop]
      | some l =>
        cases l with
        | nil => exact absurd hs hserv
        | cons s t => simp [resolveOp, hop]
    have hlast : (addMessage h (functionCallMessage call (env.genId (supply + 1)))).getLast?
        = some (functionCallMessage call (env.genId (supply + 1))) := by
      simp [addMessage]
    have hrev : revoke (addMessage h (functionCallMessage call (env.genId (supply + 1))))
        (functionCallMessage call (env.genId (supply + 1))).id = h := by
      unfold addMessage
      exact revoke_concat_self h _ (by simpa [functionCallMessage] using hfresh)
    have hstep : handleErrorStep
        (addMessage h (functionCallMessage call (env.genId (supply + 1)))) errs
        "FunctionCall execution failed!" none =
        (h, errs ++ ["400: FunctionCall execution failed!"]) := by
      simp only [functionCallMessage] at hlast hrev
      simp [handleErrorStep, hlast, hrev, functionCallMessage]
    refine ⟨?_, ?_, ?_⟩ <;> simp [dispatchLoop, hres, hstep]

/-- Witness for the amended C4 theorem: the crash branch at an empty
registry and the reported-error branch at a manifest lacking the
operation. -/
theorem dispatch_resolution_amended_witness :
    (dispatchLoop emptyEnv 0 [] [] [] [missingPluginCall]).crashed = true ∧
    (dispatchLoop witEnv 0 [] [] [] [{ name := "w_nope", args := [] }]).errors =
      ["400: FunctionCall execution failed!"] ∧
    (dispatchLoop witEnv 0 [] [] [] [{ name := "w_nope", args := [] }]).crashed = false := by
  have h1 := (dispatch_resolution_amended emptyEnv 0 [] [] [] missingPluginCall []).1
    (by decide)
  have h2 := (dispatch_resolution_amended witEnv 0 [] [] []
    { name := "w_nope", args := [] } []).2 witManifest (by decide) (by decide)
    (by decide) (by simp)
  exact ⟨h1.1, by simpa using h2.2.1, h2.1⟩

/-! ## Summarization trigger (src/app/page.tsx lines 266-277, handleResponse) -/

/-- Embeds the JS truthiness test if (part.text): true exactly for a text
part with non-empty text. -/
def textTruthy : Part → Bool
  | Part.text s => s != ""
  | _ => false

/-- Embeds the nested collection loop at lines 267-272: every message is
pushed once per truthy text part. -/
def textMessagesOf (msgs : List Message) : List Message :=
  msgs.flatMap (fun item =>
    item.parts.filterMap (fun part => if textTruthy part then some item else none))

/-- Embeds the trigger condition at lines 266-276: the threshold is
positive and the collected text messages not yet folded into the summary
outnumber it. -/
def shouldSummarize (msgs : List Message) (summaryIds : List String)
    (maxHistoryLength : Nat) : Bool :=
  decide (0 < maxHistoryLength) &&
    decide (maxHistoryLength <
      ((textMessagesOf msgs).filter (fun item => !(summaryIds.contains item.id))).length)

/-- Expresses the claim's words: the count of (distinct) text-bearing
messages not yet folded into the summary. -/
def claimTextBearingCount (msgs : List Message) (ids : List String) : Nat :=
  (msgs.filter (fun m => m.parts.any textTruthy && !(ids.contains m.id))).length

/-- Expresses the amended claim's words: messages not yet folded into the
summary, counted once per non-empty text part. -/
def unfoldedTextPartCount (msgs : List Message) (ids : List String) : Nat :=
  ((msgs.filter (fun m => !(ids.contains m.id))).map
    (fun m => (m.parts.filter textTruthy).length)).sum

theorem filterMap_const_text (m : Message) (parts : List Part) :
    parts.filterMap (fun part => if textTruthy part then some m else none) =
      List.replicate (parts.filter textTruthy).length m := by
  induction parts with
  | nil => rfl
  | cons p rest ih =>
    by_cases hp : textTruthy p = true
    · simp [List.filterMap_cons, List.filter_cons, hp, ih, List.replicate_succ]
    · have hp2 : textTruthy p = false := by simpa using hp
      simp [List.filterMap_cons, List.filter_cons, hp2, ih]

theorem filter_replicate_self {α : Type} (k : Nat) (a : α) (p : α → Bool) :
    (List.replicate k a).filter p = if p a then List.replicate k a else [] := by
  induction k with
  | zero => simp
  | succ n ih =>
    by_cases hp : p a = true
    · simp [List.replicate_succ, List.filter_cons, hp, ih]
    · have hp2 : p a = false := by simpa using hp
      simp [List.replicate_succ, List.filter_cons, hp2, ih]

theorem textMessages_filter_length (msgs : List Message) (ids : List String) :
    ((textMessagesOf msgs).filter (fun m => !(ids.contains m.id))).length =
      unfoldedTextPartCount msgs ids := by
  induction msgs with
  | nil => rfl
  | cons m rest ih =>
    have hsplit : textMessagesOf (m :: rest) =
        m.parts.filterMap (fun part => if textTruthy part then some m else none) ++
          textMessagesOf rest := by
      simp [textMessagesOf]
    rw [hsplit, List.filter_append, List.length_append, ih, filterMap_const_text,
      filter_replicate_self]
    by_cases hc : m.id ∈ ids
    · simp [unfoldedTextPartCount, List.filter_cons, hc]
    · simp [unfoldedTextPartCount, List.filter_cons, hc]

/-! ## Claim C7: counterexample, amended theorem, witness -/

/-- A message bearing two non-empty text parts. -/
def twoTextPartsMsg : Message :=
  { id := "a", role := Role.user, parts := [Part.text "x", Part.text "y"] }

/-- Claim C7 counterexample: with threshold 1 and a history holding one
unfolded message with two non-empty text parts, the code triggers
summarization (it counts the message once per text part: 2 > 1) although
the count of text-bearing messages not yet folded is 1, which does not
exceed the threshold — refuting the claim's trigger condition. -/
theorem summarize_trigger_counterexample :
    shouldSummarize [twoTextPartsMsg] [] 1 = true ∧
    claimTextBearingCount [twoTextPartsMsg] [] = 1 ∧
    ¬(1 < claimTextBearingCount [twoTextPartsMsg] []) := by
  refine ⟨?_, ?_, ?_⟩ <;> decide

/-- Claim C7 (amended): at turn completion, summarization is triggered
(once) exactly when the configured threshold is positive and the number of
unfolded text-part occurrences — messages not yet folded into the summary,
counted once per non-empty text part — exceeds the threshold; and on a
submission with a non-empty summary, the outgoing request is the condensed
summary context followed by exactly the history messages whose ids are not
in the folded-id set. -/
theorem summarize_trigger_and_request :
    (∀ (msgs : List Message) (ids : List String) (n : Nat),
      shouldSummarize msgs ids n = true ↔ 0 < n ∧ n < unfoldedTextPartCount msgs ids) ∧
    (∀ (env : SubmitEnv) (isOldVisionModel : Bool) (summary : Summary)
        (files : List AttachmentFile) (h : List Message) (text newId : String),
      text ≠ "" → isAudioDataUrl text = false → summary.content ≠ "" →
      (handleSubmit env TalkMode.chat isOldVisionModel summary files h text newId).request =
        some (getSummaryPrompt summary.content ++
          (handleSubmit env TalkMode.chat isOldVisionModel summary files h text
              newId).history.filter (fun m => !(summary.ids.contains m.id))) ∧
      ∀ msg ∈ (handleSubmit env TalkMode.chat isOldVisionModel summary files h text
          newId).history.filter (fun m => !(summary.ids.contains m.id)),
        summary.ids.contains msg.id = false) := by
  constructor
  · intro msgs ids n
    rw [shouldSummarize, textMessages_filter_length]
    simp
  · intro env isOldVisionModel summary files h text newId htext haudio hcontent
    constructor
    · simp [handleSubmit, htext, haudio, applySummary, hcontent]
    · intro msg hmsg
      have := (List.mem_filter.mp hmsg).2
      simpa using this

/-- Identity prompt transforms for the C7 witness. -/
def witSubmitEnv : SubmitEnv :=
  { getTalkAudioPrompt := fun msgs => msgs, getVoiceModelPrompt := fun msgs => msgs }

/-- Summary state for the C7 witness: one folded id and non-empty content. -/
def witSummary : Summary := { ids := ["a"], content := "the story so far" }

/-- History for the C7 witness: one folded and one unfolded text message. -/
def witHistory : List Message :=
  [{ id := "a", role := Role.user, parts := [Part.text "old"] },
   { id := "b", role := Role.model, parts := [Part.text "fresh"] }]

/-- Witness for the amended C7 theorem: the trigger fires at a concrete
over-threshold state, stays silent at threshold zero, and a concrete
submission excludes the folded id while prepending the summary context. -/
theorem summarize_trigger_and_request_witness :
    shouldSummarize witHistory [] 1 = true ∧
    shouldSummarize witHistory ["a", "b"] 1 = false ∧
    (handleSubmit witSubmitEnv TalkMode.chat false witSummary [] witHistory "hi"
        "c").request =
      some (getSummaryPrompt "the story so far" ++
        (handleSubmit witSubmitEnv TalkMode.chat false witSummary [] witHistory "hi"
            "c").history.filter (fun m => !(witSummary.ids.contains m.id))) := by
  refine ⟨?_, ?_, ?_⟩
  · exact (summarize_trigger_and_request.1 witHistory [] 1).mpr (by decide)
  · have h := summarize_trigger_and_request.1 witHistory ["a", "b"] 1
    have : ¬(0 < 1 ∧ 1 < unfoldedTextPartCount witHistory ["a", "b"]) := by decide
    rcases hb : shouldSummarize witHistory ["a", "b"] 1 with _ | _
    · rfl
    · exact absurd (h.mp hb) this
  · exact (summarize_trigger_and_request.2 witSubmitEnv false witSummary [] witHistory
      "hi" "c" (by decide) (by decide) (by decide)).1

end GeminiNextChat
